import Mathlib

/-!
# Verification of the `shell` migration driver

Shallow embedding of the `shell` database driver of this repository
(`src/database/shell/shell.go`, the relational/postgres-backed variant, and
`src/unnamed/part_000` / `src/unnamed/part_001`, the key-value/dynamodb-backed
variants) together with the external collaborators they rely on
(`strconv.Itoa`/`Atoi`, SQL transactions, the postgres advisory-lock
primitive, `exec.CommandContext`).

Go `int` values are modelled as `Int`; durations as `Int` (milliseconds) or
`Nat` (abstract ticks) where noted.
-/

namespace Shell

/-! ## Decimal strings: `strconv.Itoa` / `strconv.Atoi`

The key-value variant stores the version number as the decimal string
`strconv.Itoa(version)` in the `N` attribute of the dynamodb item
(`src/unnamed/part_000` line 137) and reads it back with `strconv.Atoi`
(line 179).  These two stdlib collaborators are embedded here, restricted to
the behaviour the driver exercises: `Itoa` prints an optional minus sign and
base-10 digits; `Atoi` accepts an optional sign followed by one or more
digits and fails on anything else (range checking of Go's 64-bit `int` is
not modelled; version values round-tripped by the driver are in range). -/

/-- One base-10 digit to its character, `'0' + d`. -/
def digitChar (d : Nat) : Char := Char.ofNat (48 + d)

/-- Numeric value of a digit character. -/
def digitVal (c : Char) : Nat := c.toNat - 48

/-- Base-10 digits of `n`, least-significant first, never empty. -/
def digitsRev (n : Nat) : List Char :=
  if _h : n < 10 then [digitChar n]
  else digitChar (n % 10) :: digitsRev (n / 10)
decreasing_by exact Nat.div_lt_self (by omega) (by omega)

/-- Decimal string of a natural number. -/
def natStr (n : Nat) : List Char := (digitsRev n).reverse

/-- `strconv.Itoa` on a (modelled) Go `int`, as a character list. -/
def itoa (v : Int) : List Char :=
  if v < 0 then '-' :: natStr v.natAbs else natStr v.toNat

/-- Parse a big-endian digit run with accumulator `acc`; fails on a
non-digit character. -/
def parseDigits (acc : Nat) : List Char → Option Nat
  | [] => some acc
  | c :: cs => if c.isDigit then parseDigits (acc * 10 + digitVal c) cs else none

/-- `strconv.Atoi`: optional sign, then one or more digits; anything else is
an error (`none`). -/
def atoi (s : List Char) : Option Int :=
  match s with
  | [] => none
  | c :: rest =>
    if c = '-' then
      if rest = [] then none else (parseDigits 0 rest).map (fun n => -(n : Int))
    else if c = '+' then
      if rest = [] then none else (parseDigits 0 rest).map (fun n => (n : Int))
    else if c.isDigit then (parseDigits 0 s).map (fun n => (n : Int))
    else none

/-- Value of a little-endian digit-character list. -/
def valLE : List Char → Nat
  | [] => 0
  | c :: cs => digitVal c + 10 * valLE cs

theorem digitVal_digitChar (d : Nat) (h : d < 10) : digitVal (digitChar d) = d := by
  interval_cases d <;> decide

theorem isDigit_digitChar (d : Nat) (h : d < 10) : (digitChar d).isDigit = true := by
  interval_cases d <;> decide

theorem valLE_digitsRev (n : Nat) : valLE (digitsRev n) = n := by
  induction n using Nat.strong_induction_on with
  | _ n ih =>
    rw [digitsRev]
    by_cases h : n < 10
    · simp [h, valLE, digitVal_digitChar n h]
    · rw [dif_neg h]
      simp only [valLE]
      rw [ih (n / 10) (Nat.div_lt_self (by omega) (by omega)),
          digitVal_digitChar _ (Nat.mod_lt n (by omega))]
      omega

theorem digitsRev_ne_nil (n : Nat) : digitsRev n ≠ [] := by
  rw [digitsRev]
  by_cases h : n < 10 <;> simp [h]

theorem digitsRev_all_digits (n : Nat) :
    ∀ c ∈ digitsRev n, c.isDigit = true := by
  induction n using Nat.strong_induction_on with
  | _ n ih =>
    rw [digitsRev]
    by_cases h : n < 10
    · simp [h, isDigit_digitChar n h]
    · rw [dif_neg h]
      intro c hc
      rcases List.mem_cons.mp hc with h1 | h1
      · exact h1 ▸ isDigit_digitChar _ (Nat.mod_lt n (by omega))
      · exact ih (n / 10) (Nat.div_lt_self (by omega) (by omega)) c h1

theorem parseDigits_append (xs ys : List Char) (acc : Nat) :
    parseDigits acc (xs ++ ys)
      = (parseDigits acc xs).bind (fun a => parseDigits a ys) := by
  induction xs generalizing acc with
  | nil => simp [parseDigits]
  | cons c cs ih =>
    simp only [List.cons_append, parseDigits]
    by_cases hc : c.isDigit <;> simp [hc, ih]

theorem parseDigits_reverse (l : List Char) (hl : ∀ c ∈ l, c.isDigit = true) :
    ∀ acc, parseDigits acc l.reverse = some (acc * 10 ^ l.length + valLE l) := by
  induction l with
  | nil => intro acc; simp [parseDigits, valLE]
  | cons c cs ih =>
    intro acc
    have hc : c.isDigit = true := hl c (List.mem_cons_self c cs)
    have hcs : ∀ x ∈ cs, x.isDigit = true := fun x hx => hl x (List.mem_cons_of_mem c hx)
    simp only [List.reverse_cons]
    rw [parseDigits_append, ih hcs acc]
    simp only [Option.some_bind, parseDigits, hc, if_pos]
    congr 1
    simp only [valLE, List.length_cons]
    ring

theorem parseDigits_natStr (n : Nat) : parseDigits 0 (natStr n) = some n := by
  rw [natStr, parseDigits_reverse (digitsRev n) (digitsRev_all_digits n) 0,
      valLE_digitsRev]
  simp

theorem natStr_ne_nil (n : Nat) : natStr n ≠ [] := by
  simp [natStr, digitsRev_ne_nil n]

theorem natStr_head_digit (n : Nat) (c : Char) (rest : List Char)
    (h : natStr n = c :: rest) : c.isDigit = true := by
  apply digitsRev_all_digits n c
  have : c ∈ natStr n := by rw [h]; exact List.mem_cons_self c rest
  simpa [natStr] using this

/-- `strconv.Atoi` inverts `strconv.Itoa`: the decimal round trip the
key-value variant relies on. -/
theorem atoi_itoa (v : Int) : atoi (itoa v) = some v := by
  rw [itoa]
  by_cases hv : v < 0
  · rw [if_pos hv]
    have h1 : atoi ('-' :: natStr v.natAbs)
        = (parseDigits 0 (natStr v.natAbs)).map (fun n => -(n : Int)) := by
      simp [atoi, natStr_ne_nil v.natAbs]
    rw [h1, parseDigits_natStr]
    show some (-(v.natAbs : Int)) = some v
    congr 1
    omega
  · rw [if_neg hv]
    rcases hn : natStr v.toNat with _ | ⟨c, rest⟩
    · exact absurd hn (natStr_ne_nil _)
    · have hc : c.isDigit = true := natStr_head_digit _ _ _ hn
      have hcm : c ≠ '-' := by intro h; subst h; simp [Char.isDigit] at hc
      have hcp : c ≠ '+' := by intro h; subst h; simp [Char.isDigit] at hc
      have h1 : atoi (c :: rest)
          = (parseDigits 0 (c :: rest)).map (fun n => (n : Int)) := by
        simp [atoi, hcm, hcp, hc]
      rw [h1, ← hn, parseDigits_natStr]
      show some ((v.toNat : Int)) = some v
      congr 1
      omega

/-! ## Relational (postgres) variant — `src/database/shell/shell.go`

The backend state visible to the driver is the migrations table: whether the
table exists and its at-most-one row `(version, dirty)` (the table is created
with `version bigint not null primary key, dirty boolean not null`, line 371,
and only ever written by `SetVersion`'s truncate-then-insert, so it holds at
most one row). -/

/-- `database.NilVersion` from the host framework's `database` package:
the sentinel for "no version". -/
def nilVersion : Int := -1

/-- Observable backend state of the relational variant: the migrations
table. -/
structure PgStore where
  tableExists : Bool
  row : Option (Int × Bool)
  deriving Repr, DecidableEq

/-- Backend-level error classes the relational `Version` distinguishes
(`shell.go` lines 298‑308): `sql.ErrNoRows`, a `pq.Error` whose code name is
`undefined_table`, or any other backend error. -/
inductive PgErr
  | noRows
  | undefinedTable
  | backend
  deriving Repr, DecidableEq

/-- Driver-level error (`database.Error` and friends); the payload records
which step failed. -/
inductive DbError
  | txBeginFailed
  | stmtFailed (q : String)
  | txCommitFailed
  | queryFailed
  | locked
  | lockExecFailed
  | unlockExecFailed
  | genLockIdFailed
  | nilConfig
  | pingFailed
  | noDatabaseName
  | noSchema
  | connFailed
  | confFailed
  deriving Repr, DecidableEq

/-- The single-row query `SELECT version, dirty FROM <table> LIMIT 1`
(`shell.go` line 296‑297) as the backend answers it: `undefined_table` when
the table is absent, `sql.ErrNoRows` when it is empty, otherwise the row. -/
def pgQueryVersionRow (st : PgStore) : Except PgErr (Int × Bool) :=
  if st.tableExists then
    match st.row with
    | none => .error .noRows
    | some r => .ok r
  else .error .undefinedTable

/-- `Shell.Version` (`shell.go` lines 295‑313): the `switch` on the scan
error maps `ErrNoRows` and `undefined_table` to `(NilVersion, false, nil)`
and wraps any other backend error. -/
def pgVersion (st : PgStore) : Except DbError (Int × Bool) :=
  match pgQueryVersionRow st with
  | .error .noRows => .ok (nilVersion, false)
  | .error .undefinedTable => .ok (nilVersion, false)
  | .error .backend => .error .queryFailed
  | .ok (v, d) => .ok (v, d)

/-- Injectable failures for the statements inside `SetVersion`'s
transaction, standing for backend errors other than those the state already
determines. -/
structure TxFaults where
  beginFails : Bool
  truncateFails : Bool
  insertFails : Bool
  commitFails : Bool
  deriving Repr, DecidableEq

/-- The fault-free schedule. -/
def noFaults : TxFaults := ⟨false, false, false, false⟩

/-- `Shell.SetVersion` (`shell.go` lines 260‑293).  A transaction is begun on
the connection; `TRUNCATE <table>` and (when `version >= 0 || (version ==
NilVersion && dirty)`, line 277) `INSERT INTO <table> (version, dirty) VALUES
($1, $2)` execute against the transaction's working copy; any statement error
rolls the transaction back, and only `Commit` installs the working copy into
the durable store.  `TRUNCATE` on a missing table is itself a statement
error.  Returns the call's result together with the durable store after the
call. -/
def pgSetVersion (st : PgStore) (version : Int) (dirty : Bool) (f : TxFaults) :
    Except DbError Unit × PgStore :=
  if f.beginFails then (.error .txBeginFailed, st)
  else if !st.tableExists || f.truncateFails then
    -- TRUNCATE failed; tx.Rollback restores the pre-transaction state
    (.error (.stmtFailed "TRUNCATE"), st)
  else
    -- working copy after TRUNCATE: table exists, zero rows
    let rowAfter : Option (Int × Bool) :=
      if version ≥ 0 ∨ (version = nilVersion ∧ dirty) then some (version, dirty) else none
    if (version ≥ 0 ∨ (version = nilVersion ∧ dirty)) ∧ f.insertFails then
      (.error (.stmtFailed "INSERT"), st)
    else if f.commitFails then (.error .txCommitFailed, st)
    else (.ok (), { st with row := rowAfter })

/-- `Shell.Drop` (`shell.go` lines 315‑351): enumerates every base table of
the current schema and issues `DROP TABLE IF EXISTS <t> CASCADE` for each,
the migrations table among them; afterwards no user table — in particular
not the migrations table — remains.  Only the migrations table is part of
the modelled state. -/
def pgDrop (_st : PgStore) : PgStore :=
  { tableExists := false, row := none }

/-! ### Contexts passed to backend statements

`shell.go` builds every backend call on `context.Background()`:
`Lock` line 173, `Unlock` line 192, `SetVersion` line 261 (and `tx.Exec`,
which inherits the transaction's context), `Version` line 297, `Drop`
lines 318/344, `ensureVersionTable` line 372.  A context carries an optional
deadline; `context.Background()` carries none. -/

/-- A Go `context.Context` as the driver uses it: just its deadline,
in milliseconds. -/
structure Ctx where
  deadline : Option Int
  deriving Repr, DecidableEq

/-- `context.Background()`. -/
def Ctx.background : Ctx := ⟨none⟩

/-- Driver configuration (`shell.go` lines 38‑43).  `statementTimeout` is in
milliseconds (`Open` multiplies the parsed integer by `time.Millisecond`,
line 141). -/
structure Config where
  migrationsTable : String
  databaseName : String
  schemaName : String
  statementTimeout : Int
  deriving Repr, DecidableEq

/-- The context `Version` passes to `QueryRowContext` (`shell.go` line 297):
`context.Background()`, whatever the configuration says. -/
def pgVersionCtx (_cfg : Config) : Ctx := Ctx.background

/-- The context `SetVersion` begins its transaction with (`shell.go`
line 261). -/
def pgSetVersionCtx (_cfg : Config) : Ctx := Ctx.background

/-- The context `Drop` passes to `QueryContext`/`ExecContext` (`shell.go`
lines 318 and 344). -/
def pgDropCtx (_cfg : Config) : Ctx := Ctx.background

/-- The context `ensureVersionTable` passes to `ExecContext` (`shell.go`
line 372). -/
def pgEnsureCtx (_cfg : Config) : Ctx := Ctx.background

/-! ### `Open` option parsing (`shell.go` lines 115‑149)

`Open` reads `x-postgres-dsn`, `x-migrations-table` and
`x-statement-timeout` from the URL's query.  A non-empty
`x-statement-timeout` goes through `strconv.Atoi`; a parse error aborts
`Open`.  The query string is modelled as an association list; `Get` returns
`""` for an absent key, as `url.Values.Get` does. -/

/-- `url.Values.Get`. -/
def queryGet (q : List (String × String)) (key : String) : String :=
  match q.find? (fun p => p.1 = key) with
  | some p => p.2
  | none => ""

/-- Result of `Open`'s option parsing: the bound `Config` (shell.go
lines 138‑142; `DatabaseName` comes from the URL path, `SchemaName` is
resolved later by `WithInstance`). -/
def shellOpenParse (path : String) (q : List (String × String)) :
    Option Config :=
  let migrationsTable := queryGet q "x-migrations-table"
  let statementTimeoutString := queryGet q "x-statement-timeout"
  match (if statementTimeoutString = "" then some 0
         else atoi statementTimeoutString.data) with
  | none => none
  | some statementTimeout =>
      some { migrationsTable := migrationsTable
             databaseName := path
             schemaName := ""
             statementTimeout := statementTimeout }

/-! ### `Lock` / `Unlock` (`shell.go` lines 161‑197)

`Lock` refuses when the handle already believes itself locked, otherwise
derives the advisory-lock id and executes the blocking
`SELECT pg_advisory_lock($1)`; only after that statement returns without
error is `isLocked` set.  `Unlock` is the mirror image and a no-op success
when not locked.  The call functions below record the call's result, the
handle's `isLocked` flag after the call, and which requests reached the
backing store. -/

/-- Outcome of one `ExecContext` against the backend (for the advisory-lock
statements, `.ok` stands for "the blocking call returned, lock granted"). -/
inductive ExecOutcome
  | ok
  | failed
  deriving Repr, DecidableEq

/-- A request issued to the backing store by `Lock`/`Unlock`. -/
inductive LockReq
  | acquire
  | release
  deriving Repr, DecidableEq

/-- Result of one `Lock` or `Unlock` call. -/
structure LockCallResult where
  res : Option DbError
  locked : Bool
  reqs : List LockReq
  deriving Repr, DecidableEq

/-- `Shell.Lock` (`shell.go` lines 161‑179).  `genIdOk` is whether
`database.GenerateAdvisoryLockId` succeeds, `ex` the outcome of
`SELECT pg_advisory_lock($1)`. -/
def lockCall (isLocked : Bool) (genIdOk : Bool) (ex : ExecOutcome) :
    LockCallResult :=
  if isLocked then ⟨some .locked, isLocked, []⟩
  else if ¬genIdOk then ⟨some .genLockIdFailed, isLocked, []⟩
  else match ex with
    | .ok => ⟨none, true, [.acquire]⟩
    | .failed => ⟨some .lockExecFailed, isLocked, [.acquire]⟩

/-- `Shell.Unlock` (`shell.go` lines 181‑197). -/
def unlockCall (isLocked : Bool) (genIdOk : Bool) (ex : ExecOutcome) :
    LockCallResult :=
  if ¬isLocked then ⟨none, isLocked, []⟩
  else if ¬genIdOk then ⟨some .genLockIdFailed, isLocked, []⟩
  else match ex with
    | .ok => ⟨none, false, [.release]⟩
    | .failed => ⟨some .unlockExecFailed, isLocked, [.release]⟩

/-- `Shell.ensureVersionTable` (`shell.go` lines 356‑377): `Lock`; on
success, `CREATE TABLE IF NOT EXISTS <table> (version bigint not null
primary key, dirty boolean not null)` and a deferred `Unlock` whose error is
aggregated with the create error.  Returns (error, store after, `isLocked`
after). -/
def ensureVersionTable (st : PgStore) (isLocked : Bool) (lockGenOk : Bool)
    (lockEx : ExecOutcome) (createFails : Bool) (unlockGenOk : Bool)
    (unlockEx : ExecOutcome) : Option DbError × PgStore × Bool :=
  let lc := lockCall isLocked lockGenOk lockEx
  match lc.res with
  | some e => (some e, st, lc.locked)
  | none =>
    let createRes : Option DbError :=
      if createFails then some (.stmtFailed "CREATE TABLE IF NOT EXISTS") else none
    let st' := if createFails then st
               else { tableExists := true,
                      row := if st.tableExists then st.row else none }
    let uc := unlockCall lc.locked unlockGenOk unlockEx
    ((match createRes, uc.res with
      | some e, _ => some e
      | none, some e => some e
      | none, none => none), st', uc.locked)

/-- Environment outcomes `WithInstance` depends on (`shell.go`
lines 55‑113): ping, the `CURRENT_DATABASE()`/`CURRENT_SCHEMA()` probes,
obtaining a dedicated connection, and the `ensureVersionTable` statement
outcomes. -/
structure PgEnv where
  pingOk : Bool
  currentDatabaseOk : Bool
  currentDatabase : String
  currentSchemaOk : Bool
  currentSchema : String
  connOk : Bool
  lockGenOk : Bool
  lockEx : ExecOutcome
  createFails : Bool
  unlockGenOk : Bool
  unlockEx : ExecOutcome
  deriving Repr, DecidableEq

/-- `DefaultMigrationsTable` (`shell.go` line 29). -/
def defaultMigrationsTable : String := "schema_migrations"

/-- `WithInstance` (`shell.go` lines 55‑113): nil-config check, ping,
resolution of empty database/schema names, migrations-table default, a
dedicated connection, then `ensureVersionTable` on a fresh handle
(`isLocked` zero value `false`).  Returns the bound config, the store and
the handle's `isLocked` flag. -/
def withInstance (st : PgStore) (cfg? : Option Config) (env : PgEnv) :
    Except DbError (Config × PgStore × Bool) :=
  match cfg? with
  | none => .error .nilConfig
  | some config =>
    if ¬env.pingOk then .error .pingFailed
    else
      match (if config.databaseName = "" then
               if ¬env.currentDatabaseOk then .error DbError.queryFailed
               else if env.currentDatabase = "" then .error .noDatabaseName
               else .ok env.currentDatabase
             else .ok config.databaseName : Except DbError String) with
      | .error e => .error e
      | .ok dbName =>
        match (if config.schemaName = "" then
                 if ¬env.currentSchemaOk then .error DbError.queryFailed
                 else if env.currentSchema = "" then .error .noSchema
                 else .ok env.currentSchema
               else .ok config.schemaName : Except DbError String) with
        | .error e => .error e
        | .ok schName =>
          let table := if config.migrationsTable = "" then defaultMigrationsTable
                       else config.migrationsTable
          if ¬env.connOk then .error .connFailed
          else
            let cfg' := { config with databaseName := dbName,
                                      schemaName := schName,
                                      migrationsTable := table }
            match ensureVersionTable st false env.lockGenOk env.lockEx
                env.createFails env.unlockGenOk env.unlockEx with
            | (some e, _, _) => .error e
            | (none, st', locked') => .ok (cfg', st', locked')

/-- `Shell.Open` of the relational variant (`shell.go` lines 115‑149):
option parsing, `sql.Open` (which only validates lazily and is not a
failure point here), then `WithInstance`. -/
def shellOpen (path : String) (q : List (String × String)) (st : PgStore)
    (env : PgEnv) : Except DbError (Config × PgStore × Bool) :=
  match shellOpenParse path q with
  | none => .error .confFailed
  | some cfg => withInstance st (some cfg) env

/-! ## Key-value (dynamodb) variant — `src/unnamed/part_000`

The backend state is one dynamodb table holding at most the single item
keyed by `ID = "LatestMigrationVersion"`. -/

/-- The fields of `dynamodb.AttributeValue` the driver touches. -/
structure DynAttr where
  S : Option String := none
  N : Option (List Char) := none
  BOOL : Option Bool := none
  deriving Repr, DecidableEq

/-- A dynamodb item as an attribute map. -/
abbrev DynItem := List (String × DynAttr)

/-- Map indexing `item["key"]`. -/
def attrGet (item : DynItem) (k : String) : Option DynAttr :=
  (item.find? (fun p => p.1 == k)).map (fun p => p.2)

/-- Observable backend state of the key-value variant: whether the table
exists and the item stored under the fixed key, if any. -/
structure DynStore where
  tableExists : Bool
  item : Option DynItem
  deriving Repr, DecidableEq

/-- Errors of the key-value variant (`src/unnamed/part_000`): a dynamodb
call against a missing table (`ResourceNotFoundException`), the
schema-corruption errors of `Version` (lines 168‑195), and its
`strconv.Atoi` wrap (line 181). -/
inductive DynErr
  | resourceNotFound
  | missingAttr (name : String)
  | wrongAttrType (name : String)
  | parseVersionFailed
  deriving Repr, DecidableEq

/-- The item `SetVersion` writes (`src/unnamed/part_000` lines 127‑140). -/
def dynItemFor (version : Int) (dirty : Bool) : DynItem :=
  [("ID", { S := some "LatestMigrationVersion" }),
   ("Dirty", { BOOL := some dirty }),
   ("Version", { N := some (itoa version) })]

/-- `Shell.SetVersion` of the key-value variant (`src/unnamed/part_000`
lines 126‑144): a single `PutItem` of the full item — atomic at item
granularity; fails when the table is absent. -/
def dynSetVersion (st : DynStore) (version : Int) (dirty : Bool) :
    Except DynErr Unit × DynStore :=
  if st.tableExists then
    (.ok (), { st with item := some (dynItemFor version dirty) })
  else (.error .resourceNotFound, st)

/-- `Shell.Version` of the key-value variant (`src/unnamed/part_000`
lines 146‑198).  `GetItem` on a missing table errors; a present table with
no item yields an empty attribute map, whose missing `ID` key is the
"no version" state.  Note the `strconv.Atoi` failure at line 179 does not
return early (lines 179‑182 set `err` and fall through), so a `Dirty`
schema error reported later takes precedence over the parse error. -/
def dynVersion (st : DynStore) : Except DynErr (Int × Bool) :=
  if ¬st.tableExists then .error .resourceNotFound
  else
    let item : DynItem := st.item.getD []
    match attrGet item "ID" with
    | none => .ok (nilVersion, false)
    | some _ =>
      match attrGet item "Version" with
      | none => .error (.missingAttr "Version")
      | some attr =>
        match attr.N with
        | none => .error (.wrongAttrType "Version")
        | some versionString =>
          let parsed := atoi versionString
          match attrGet item "Dirty" with
          | none => .error (.missingAttr "Dirty")
          | some dattr =>
            match dattr.BOOL with
            | none => .error (.wrongAttrType "Dirty")
            | some dirty =>
              match parsed with
              | none => .error .parseVersionFailed
              | some version => .ok (version, dirty)

/-- `Shell.Lock` of the key-value variant (`src/unnamed/part_000`
lines 208‑210): `return nil`, unconditionally. -/
def dynLock : Option DynErr := none

/-- `Shell.Unlock` of the key-value variant (lines 212‑214). -/
def dynUnlock : Option DynErr := none

/-- `Shell.Drop` of the key-value variant (lines 204‑206): `return nil`,
no store operation. -/
def dynDrop (st : DynStore) : Option DynErr × DynStore := (none, st)

/-! ### `Open` of the key-value variant (`src/unnamed/part_000`
lines 41‑85) -/

/-- Configuration bound by the key-value `Open` (`src/unnamed/part_000`
lines 30‑34).  `timeout` in nanoseconds as `time.Duration`; `0` means
unset. -/
structure DynConfig where
  migrationsTable : String
  timeout : Int
  verbose : Bool
  deriving Repr, DecidableEq

/-- `time.ParseDuration`, restricted to the single-component integer forms
(`"300ms"`, `"2s"`, …) of the stdlib collaborator; result in
nanoseconds. -/
def parseDuration (s : List Char) : Option Int :=
  let unitVal : List Char → Option Int := fun u =>
    if u = ['n', 's'] then some 1
    else if u = ['u', 's'] then some 1000
    else if u = ['m', 's'] then some 1000000
    else if u = ['s'] then some 1000000000
    else if u = ['m'] then some 60000000000
    else if u = ['h'] then some 3600000000000
    else none
  if s = ['0'] then some 0
  else
    let digits := s.takeWhile Char.isDigit
    let unit := s.dropWhile Char.isDigit
    if digits = [] then none
    else match parseDigits 0 digits, unitVal unit with
      | some n, some u => some ((n : Int) * u)
      | _, _ => none

/-- `strconv.ParseBool`. -/
def parseBool (s : String) : Option Bool :=
  if s ∈ ["1", "t", "T", "TRUE", "true", "True"] then some true
  else if s ∈ ["0", "f", "F", "FALSE", "false", "False"] then some false
  else none

/-- `Shell.Open` of the key-value variant (`src/unnamed/part_000`
lines 41‑85): parses `x-timeout` (default `0`), `x-verbose` (default
`true`) and `x-dynamodb-table`, creates the aws session, and returns the
new handle.  It performs no dynamodb call, so the store is returned
untouched. -/
def dynOpen (st : DynStore) (q : List (String × String)) (sessionOk : Bool) :
    Except Unit DynConfig × DynStore :=
  let timeoutString := queryGet q "x-timeout"
  match (if timeoutString = "" then some 0
         else parseDuration timeoutString.data) with
  | none => (.error (), st)
  | some timeout =>
    let verboseString := queryGet q "x-verbose"
    match (if verboseString = "" then some true else parseBool verboseString) with
    | none => (.error (), st)
    | some verbose =>
      let dynamodbTable := queryGet q "x-dynamodb-table"
      if ¬sessionOk then (.error (), st)
      else (.ok { migrationsTable := dynamodbTable
                  timeout := timeout
                  verbose := verbose }, st)

/-! ### `Run` (`src/unnamed/part_000` lines 87‑124)

`Run` materializes the payload as a temp executable.  When
`config.Timeout > 0` the background context is bounded by that timeout
(lines 105‑110) and handed to `exec.CommandContext` (line 112), whose
documented behaviour — kill the child when the context expires — is the
modelled `cmdRun`.  The relational variant's `Run` (`shell.go`
lines 199‑223) is this function with no deadline. -/

/-- What the child process would do if left alone: fail to launch, or run
for `duration` time units and exit with `exitCode`. -/
inductive ChildBehavior
  | launchFails
  | runs (duration : Nat) (exitCode : Nat)
  deriving Repr, DecidableEq

/-- The distinguishable `Run` error kinds. -/
inductive RunErr
  | tempDirFailed
  | readFailed
  | writeFailed
  | launchFailed
  | nonZeroExit (code : Nat)
  | killedOnTimeout
  deriving Repr, DecidableEq

/-- Filesystem outcomes of `Run`'s temp-file steps plus the child's
behaviour. -/
structure RunEnv where
  tempDirOk : Bool
  readOk : Bool
  writeOk : Bool
  child : ChildBehavior
  deriving Repr, DecidableEq

/-- `exec.CommandContext(...).Run()` (documented semantics of the `os/exec`
collaborator): a launch failure is its own error; with a deadline, a child
still running when the deadline elapses is forcibly terminated and the call
errors; otherwise a non-zero exit status errors. -/
def cmdRun (deadline : Option Nat) (child : ChildBehavior) : Option RunErr :=
  match child with
  | .launchFails => some .launchFailed
  | .runs dur code =>
    match deadline with
    | some t => if t < dur then some .killedOnTimeout
                else if code ≠ 0 then some (.nonZeroExit code) else none
    | none => if code ≠ 0 then some (.nonZeroExit code) else none

/-- The deadline `Run` configures (`src/unnamed/part_000` lines 105‑110):
`context.Background()` bounded by `config.Timeout` only when that is
positive. -/
def runDeadline (timeout : Int) : Option Nat :=
  if timeout > 0 then some timeout.toNat else none

/-- `Shell.Run` of the key-value variant (`src/unnamed/part_000`
lines 87‑124): temp dir, read payload, write executable, then the child
under `runDeadline config.timeout`. -/
def dynRun (cfg : DynConfig) (env : RunEnv) : Option RunErr :=
  if ¬env.tempDirOk then some .tempDirFailed
  else if ¬env.readOk then some .readFailed
  else if ¬env.writeOk then some .writeFailed
  else cmdRun (runDeadline cfg.timeout) env.child

/-! ## The advisory lock across competing handles

`database.GenerateAdvisoryLockId(databaseName, schemaName)` is
deterministic, so every relational handle opened against the same
`(databaseName, schemaName)` executes `pg_advisory_lock`/`pg_advisory_unlock`
on the same server-side token.  The server grants that session-scoped lock
to at most one session and `pg_advisory_lock` blocks until it is free;
`pg_advisory_unlock` releases it only when the calling session holds it
(documented postgres semantics of the backing-store collaborator).

A global state is the server's current holder plus each handle's
process-local `isLocked` flag.  The state-changing transitions are exactly
the successful `Lock` and `Unlock` calls of `shell.go` (lines 161‑197):
every other call path — `ErrLocked` (line 163), a `GenerateAdvisoryLockId`
failure, a failed `Exec`, or `Unlock` on an unlocked handle (line 183) —
returns with the flag unchanged (`lockCall` / `unlockCall` above) and
leaves the server untouched. -/

/-- Global state: the advisory lock's holder and every handle's `isLocked`
flag (handles indexed by `Nat`). -/
structure LockState where
  holder : Option Nat
  flags : Nat → Bool

/-- The state-changing lock transitions. -/
inductive LockStep : LockState → LockState → Prop
  /-- `Lock` past the `isLocked` guard: the blocking
  `SELECT pg_advisory_lock($1)` returns once the server lock is free, and
  only then is `isLocked` set (`shell.go` lines 171‑177). -/
  | acquire (s : LockState) (h : Nat) :
      s.flags h = false → s.holder = none →
      LockStep s ⟨some h, Function.update s.flags h true⟩
  /-- `Unlock` past the `isLocked` guard: `SELECT pg_advisory_unlock($1)`
  releases the server lock when this session holds it, and `isLocked` is
  cleared (`shell.go` lines 191‑195). -/
  | release (s : LockState) (h : Nat) :
      s.flags h = true →
      LockStep s ⟨if s.holder = some h then none else s.holder,
                  Function.update s.flags h false⟩

/-- All handles start unlocked and the server lock free. -/
def lockInit : LockState := ⟨none, fun _ => false⟩

/-- States reachable by any interleaving of `Lock`/`Unlock` calls. -/
def LockReachable (s : LockState) : Prop :=
  Relation.ReflTransGen LockStep lockInit s

/-- The flag/holder invariant: a handle believing itself locked is the
server-side holder. -/
def LockInv (s : LockState) : Prop :=
  ∀ h, s.flags h = true → s.holder = some h

theorem lockInv_init : LockInv lockInit := by
  intro h hf
  simp [lockInit] at hf

theorem lockInv_step {s s' : LockState} (hs : LockInv s) (hstep : LockStep s s') :
    LockInv s' := by
  cases hstep with
  | acquire h hflag hfree =>
    intro h' hf'
    by_cases he : h' = h
    · simp [he]
    · rw [show ({ holder := some h, flags := Function.update s.flags h true } :
            LockState).flags h' = Function.update s.flags h true h' from rfl,
          Function.update_noteq he] at hf'
      exact absurd (hs h' hf' ▸ hfree) (by simp)
  | release h hflag =>
    intro h' hf'
    by_cases he : h' = h
    · rw [show (⟨if s.holder = some h then none else s.holder,
            Function.update s.flags h false⟩ : LockState).flags h'
            = Function.update s.flags h false h' from rfl,
          he, Function.update_same] at hf'
      exact absurd hf' (by simp)
    · rw [show (⟨if s.holder = some h then none else s.holder,
            Function.update s.flags h false⟩ : LockState).flags h'
            = Function.update s.flags h false h' from rfl,
          Function.update_noteq he] at hf'
      have := hs h' hf'
      have hh := hs h hflag
      rw [this] at hh
      exact absurd (Option.some.inj hh) he

theorem lockInv_reachable {s : LockState} (hr : LockReachable s) : LockInv s := by
  induction hr with
  | refl => exact lockInv_init
  | tail _ hstep ih => exact lockInv_step ih hstep

/-! ## Helper lemmas -/

theorem pgSetVersion_noFaults (st : PgStore) (v : Int) (d : Bool)
    (htab : st.tableExists = true) :
    pgSetVersion st v d noFaults
      = (.ok (), { st with
          row := if v ≥ 0 ∨ (v = nilVersion ∧ d) then some (v, d) else none }) := by
  simp [pgSetVersion, noFaults, htab]

theorem pgVersion_rowFor (st : PgStore) (htab : st.tableExists = true)
    (v : Int) (d : Bool) (hv : -1 ≤ v) :
    pgVersion { st with
        row := if v ≥ 0 ∨ (v = nilVersion ∧ d) then some (v, d) else none }
      = .ok (v, d) := by
  by_cases hc : v ≥ 0 ∨ (v = nilVersion ∧ d)
  · simp [pgVersion, pgQueryVersionRow, htab, hc]
  · push_neg at hc
    have hv1 : v = -1 := by
      have h1 := hc.1
      omega
    have hd : d = false := by
      have h2 := hc.2 (by rw [hv1]; rfl)
      simpa using h2
    subst hv1
    subst hd
    simp [pgVersion, pgQueryVersionRow, htab, nilVersion]

/-- Every run of `SetVersion` either fails leaving the durable store
untouched, or succeeds having fully replaced the row. -/
theorem pgSetVersion_cases (st : PgStore) (v : Int) (d : Bool) (f : TxFaults) :
    (∃ e, pgSetVersion st v d f = (.error e, st))
    ∨ (st.tableExists = true
        ∧ pgSetVersion st v d f
            = (.ok (), { st with
                row := if v ≥ 0 ∨ (v = nilVersion ∧ d)
                       then some (v, d) else none })) := by
  rcases f with ⟨fb, ft, fi, fc⟩
  cases fb with
  | true => exact Or.inl ⟨.txBeginFailed, by simp [pgSetVersion]⟩
  | false =>
    rcases ht : st.tableExists with _ | _
    · exact Or.inl ⟨.stmtFailed "TRUNCATE", by simp [pgSetVersion, ht]⟩
    · cases ft with
      | true => exact Or.inl ⟨.stmtFailed "TRUNCATE", by simp [pgSetVersion, ht]⟩
      | false =>
        by_cases hc : v ≥ 0 ∨ (v = nilVersion ∧ d)
        · cases fi with
          | true => exact Or.inl ⟨.stmtFailed "INSERT",
              by simp [pgSetVersion, ht, hc]⟩
          | false =>
            cases fc with
            | true => exact Or.inl ⟨.txCommitFailed, by simp [pgSetVersion, ht, hc]⟩
            | false => exact Or.inr ⟨by simp [ht], by simp [pgSetVersion, ht, hc]⟩
        · cases fc with
          | true => exact Or.inl ⟨.txCommitFailed, by simp [pgSetVersion, ht, hc]⟩
          | false => exact Or.inr ⟨by simp [ht], by simp [pgSetVersion, ht, hc]⟩

theorem dynVersion_itemFor (v : Int) (d : Bool) :
    dynVersion ⟨true, some (dynItemFor v d)⟩ = .ok (v, d) := by
  have h1 : dynVersion ⟨true, some (dynItemFor v d)⟩
      = match atoi (itoa v) with
        | none => .error .parseVersionFailed
        | some version => .ok (version, d) := rfl
  rw [h1, atoi_itoa]

/-- Both variants start equivalent and `SetVersion` keeps them equivalent:
the simulation invariant for the version-store contract. -/
def Agree (p : PgStore) (d : DynStore) : Prop :=
  p.tableExists = true ∧ d.tableExists = true
  ∧ ∃ r, pgVersion p = .ok r ∧ dynVersion d = .ok r

/-- Fresh relational store: migrations table created, no row. -/
def pgInit : PgStore := ⟨true, none⟩

/-- Fresh key-value store: table created, no item. -/
def dynInit : DynStore := ⟨true, none⟩

/-- A fault-free sequence of relational `SetVersion` calls. -/
def pgRunSets (st : PgStore) (ops : List (Int × Bool)) : PgStore :=
  ops.foldl (fun s p => (pgSetVersion s p.1 p.2 noFaults).2) st

/-- The same sequence of key-value `SetVersion` calls. -/
def dynRunSets (st : DynStore) (ops : List (Int × Bool)) : DynStore :=
  ops.foldl (fun s p => (dynSetVersion s p.1 p.2).2) st

theorem agree_init : Agree pgInit dynInit :=
  ⟨rfl, rfl, (-1, false), rfl, rfl⟩

theorem agree_step (p : PgStore) (d : DynStore) (v : Int) (b : Bool)
    (hp : p.tableExists = true) (hd : d.tableExists = true) (hv : -1 ≤ v) :
    Agree (pgSetVersion p v b noFaults).2 (dynSetVersion d v b).2 := by
  rw [pgSetVersion_noFaults p v b hp]
  have hdyn : (dynSetVersion d v b).2 = { d with item := some (dynItemFor v b) } := by
    simp [dynSetVersion, hd]
  rw [hdyn]
  refine ⟨hp, hd, (v, b), pgVersion_rowFor p hp v b hv, ?_⟩
  have : ({ d with item := some (dynItemFor v b) } : DynStore)
      = ⟨true, some (dynItemFor v b)⟩ := by
    cases d
    simp_all
  rw [this]
  exact dynVersion_itemFor v b

theorem agree_run (ops : List (Int × Bool)) (hops : ∀ q ∈ ops, -1 ≤ q.1) :
    ∀ p d, Agree p d → Agree (pgRunSets p ops) (dynRunSets d ops) := by
  induction ops with
  | nil => intro p d hpd; simpa [pgRunSets, dynRunSets] using hpd
  | cons op rest ih =>
    intro p d hpd
    have hstep : Agree (pgSetVersion p op.1 op.2 noFaults).2
        (dynSetVersion d op.1 op.2).2 :=
      agree_step p d op.1 op.2 hpd.1 hpd.2.1 (hops op (List.mem_cons_self op rest))
    have hrest : ∀ q ∈ rest, -1 ≤ q.1 :=
      fun q hq => hops q (List.mem_cons_of_mem op hq)
    have h1 : pgRunSets p (op :: rest)
        = pgRunSets (pgSetVersion p op.1 op.2 noFaults).2 rest := rfl
    have h2 : dynRunSets d (op :: rest)
        = dynRunSets (dynSetVersion d op.1 op.2).2 rest := rfl
    rw [h1, h2]
    exact ih hrest _ _ hstep

theorem ensureVersionTable_ok (st : PgStore) (isLocked : Bool)
    (lgo : Bool) (lex : ExecOutcome) (cf : Bool) (ugo : Bool)
    (uex : ExecOutcome)
    (h : (ensureVersionTable st isLocked lgo lex cf ugo uex).1 = none) :
    (ensureVersionTable st isLocked lgo lex cf ugo uex).2.1.tableExists = true := by
  cases isLocked <;> cases lgo <;> cases lex <;> cases cf <;>
    simp_all [ensureVersionTable, lockCall, unlockCall]

/-! ## Claims -/

/-- C1: for every `(version, dirty)` with `version ≥ -1`, a fault-free
`SetVersion(version, dirty)` on an existing store succeeds and a subsequent
`Version()` returns exactly `(version, dirty)` with no error — in
particular `SetVersion(-1, true)` is written (not collapsed to the empty
state), by the `version == NilVersion && dirty` clause of `shell.go`
line 277. -/
theorem C1_setVersion_version_roundTrip (st : PgStore) (version : Int)
    (dirty : Bool) (htab : st.tableExists = true) (hv : -1 ≤ version) :
    (pgSetVersion st version dirty noFaults).1 = .ok ()
    ∧ pgVersion (pgSetVersion st version dirty noFaults).2
        = .ok (version, dirty) := by
  rw [pgSetVersion_noFaults st version dirty htab]
  exact ⟨rfl, pgVersion_rowFor st htab version dirty hv⟩

/-- Witness for C1 at the highlighted input: `SetVersion(-1, true)` then
`Version()` returns `(-1, true)`. -/
theorem C1_witness :
    (pgSetVersion ⟨true, none⟩ (-1) true noFaults).1 = .ok ()
    ∧ pgVersion (pgSetVersion ⟨true, none⟩ (-1) true noFaults).2
        = .ok (-1, true) :=
  C1_setVersion_version_roundTrip ⟨true, none⟩ (-1) true rfl (by decide)

/-- C2: `Version()` returns `(-1, false)` with no error whenever no version
record exists — on a fresh never-written store, after `Drop()` removed the
version table, and (`shell.go` lines 303‑306) on any store whose table is
absent: the `undefined_table` backend condition is the empty state, not an
error.  The key-value variant's fresh store (table present, no item)
behaves the same (`src/unnamed/part_000` lines 161‑165). -/
theorem C2_version_empty_state :
    pgVersion pgInit = .ok (-1, false)
    ∧ (∀ st : PgStore, pgVersion (pgDrop st) = .ok (-1, false))
    ∧ (∀ row, pgVersion ⟨false, row⟩ = .ok (-1, false))
    ∧ dynVersion dynInit = .ok (-1, false) :=
  ⟨rfl, fun _ => rfl, fun _ => rfl, rfl⟩

/-- C3: `SetVersion` is atomic.  For every starting store, every
`(version, dirty)` in the version domain and every failure schedule of the
transaction's steps, either the call fails and the durable store is exactly
the previous one, or it succeeds and a subsequent `Version()` observes the
full new pair — a truncated table without the new row is never observable,
because both statements run inside one transaction whose working copy is
installed only by `Commit` (`shell.go` lines 261‑292). -/
theorem C3_setVersion_atomic (st : PgStore) (version : Int) (dirty : Bool)
    (f : TxFaults) (hv : -1 ≤ version) :
    (∃ e, (pgSetVersion st version dirty f).1 = .error e
        ∧ (pgSetVersion st version dirty f).2 = st)
    ∨ ((pgSetVersion st version dirty f).1 = .ok ()
        ∧ pgVersion (pgSetVersion st version dirty f).2
            = .ok (version, dirty)) := by
  rcases pgSetVersion_cases st version dirty f with ⟨e, he⟩ | ⟨ht, hok⟩
  · exact Or.inl ⟨e, by rw [he], by rw [he]⟩
  · refine Or.inr ⟨by rw [hok], ?_⟩
    rw [hok]
    exact pgVersion_rowFor st ht version dirty hv

/-- Witness for C3: a commit failure of `SetVersion(7, true)` over the
stored pair `(5, false)` leaves the old state observable, per the error
disjunct. -/
theorem C3_witness :
    (∃ e, (pgSetVersion ⟨true, some (5, false)⟩ 7 true ⟨false, false, false, true⟩).1
            = .error e
        ∧ (pgSetVersion ⟨true, some (5, false)⟩ 7 true ⟨false, false, false, true⟩).2
            = ⟨true, some (5, false)⟩)
    ∨ ((pgSetVersion ⟨true, some (5, false)⟩ 7 true ⟨false, false, false, true⟩).1
          = .ok ()
        ∧ pgVersion (pgSetVersion ⟨true, some (5, false)⟩ 7 true
            ⟨false, false, false, true⟩).2 = .ok (7, true)) :=
  C3_setVersion_atomic ⟨true, some (5, false)⟩ 7 true ⟨false, false, false, true⟩
    (by decide)

/-- C4 counterexample: the two variants do not agree on every operation of
the driver interface.  A second `Lock()` on the same relational handle
fails with `ErrLocked` (`shell.go` lines 162‑164), while the key-value
variant's `Lock()` returns `nil` unconditionally (`src/unnamed/part_000`
lines 208‑210). -/
theorem C4_counterexample :
    (lockCall (lockCall false true .ok).locked true .ok).res
      = some DbError.locked
    ∧ dynLock = none := by
  exact ⟨rfl, rfl⟩

/-- C4 (amended): the two variants are equivalent as version stores —
starting from fresh stores, after any sequence of `SetVersion` calls with
versions `≥ -1`, `Version()` returns the same `(version, dirty)` with no
error in both — but they do not agree on every interface operation (see the
counterexample). -/
theorem C4_version_store_equivalence (ops : List (Int × Bool))
    (hops : ∀ q ∈ ops, -1 ≤ q.1) :
    ∃ r : Int × Bool,
      pgVersion (pgRunSets pgInit ops) = .ok r
      ∧ dynVersion (dynRunSets dynInit ops) = .ok r := by
  rcases agree_run ops hops pgInit dynInit agree_init with ⟨_, _, r, h1, h2⟩
  exact ⟨r, h1, h2⟩

/-- Witness for C4 on the sequence `[SetVersion(3, true)]`. -/
theorem C4_witness :
    ∃ r : Int × Bool,
      pgVersion (pgRunSets pgInit [(3, true)]) = .ok r
      ∧ dynVersion (dynRunSets dynInit [(3, true)]) = .ok r :=
  C4_version_store_equivalence [(3, true)] (by decide)

/-- C5: mutual exclusion.  In every state reachable by any interleaving of
`Lock`/`Unlock` calls from relational handles sharing one advisory-lock
token (same `(databaseName, schemaName)`, hence the same deterministic
`GenerateAdvisoryLockId` result), at most one handle has `isLocked = true`:
two handles never both report `isLocked = true` simultaneously. -/
theorem C5_lock_mutual_exclusion (s : LockState) (hr : LockReachable s)
    (h1 h2 : Nat) (hf1 : s.flags h1 = true) (hf2 : s.flags h2 = true) :
    h1 = h2 := by
  have inv := lockInv_reachable hr
  have e1 := inv h1 hf1
  have e2 := inv h2 hf2
  rw [e1] at e2
  exact Option.some.inj e2

/-- The state in which handle `0` has taken the lock. -/
def oneLocked : LockState := ⟨some 0, Function.update lockInit.flags 0 true⟩

/-- Witness for C5: the state after handle `0`'s successful `Lock` is
reachable, and mutual exclusion applies to it. -/
theorem C5_witness : LockReachable oneLocked ∧ (0 : Nat) = 0 :=
  have hr : LockReachable oneLocked :=
    Relation.ReflTransGen.single (LockStep.acquire lockInit 0 rfl rfl)
  ⟨hr, C5_lock_mutual_exclusion oneLocked hr 0 0
        (by simp [oneLocked]) (by simp [oneLocked])⟩

/-- C6: `Lock()` on a handle that already believes it holds the lock fails
immediately with `database.ErrLocked`, leaves the flag as it was, and
issues no acquire request to the backing store — whatever the lock-id
generation or the backend would have done (`shell.go` lines 162‑164). -/
theorem C6_lock_already_locked (genIdOk : Bool) (ex : ExecOutcome) :
    lockCall true genIdOk ex = ⟨some .locked, true, []⟩ := rfl

/-- C7: with a positive configured timeout, a `Run` whose child outlives
the deadline is forcibly terminated and fails with the timeout error kind,
distinct from the non-zero-exit and launch-failure kinds; with timeout
zero, `Run` waits for the child however long it runs and never reports a
timeout. -/
theorem C7_run_timeout (cfg : DynConfig) (env : RunEnv) (dur code : Nat)
    (htd : env.tempDirOk = true) (hrd : env.readOk = true)
    (hwr : env.writeOk = true) :
    (cfg.timeout > 0 → env.child = .runs dur code → cfg.timeout.toNat < dur →
        dynRun cfg env = some .killedOnTimeout)
    ∧ (∀ c, RunErr.killedOnTimeout ≠ RunErr.nonZeroExit c)
    ∧ RunErr.killedOnTimeout ≠ RunErr.launchFailed
    ∧ (cfg.timeout = 0 → env.child = .runs dur code →
        dynRun cfg env = if code = 0 then none else some (.nonZeroExit code)) := by
  refine ⟨?_, ?_, ?_, ?_⟩
  · intro hpos hchild hover
    simp only [dynRun, htd, hrd, hwr, Bool.not_true, if_neg, hchild,
      runDeadline, if_pos hpos, cmdRun]
    simp [hover]
  · intro c h
    cases h
  · intro h
    cases h
  · intro hzero hchild
    simp only [dynRun, htd, hrd, hwr, Bool.not_true, if_neg, hchild,
      runDeadline, hzero, cmdRun]
    by_cases hcode : code = 0 <;> simp [hcode]

/-- Witness for C7: timeout 100, child runs 200 and would exit 7 — the run
is killed with the timeout error kind. -/
theorem C7_witness :
    dynRun ⟨"", 100, true⟩ ⟨true, true, true, .runs 200 7⟩
      = some .killedOnTimeout :=
  (C7_run_timeout ⟨"", 100, true⟩ ⟨true, true, true, .runs 200 7⟩ 200 7
      rfl rfl rfl).1 (by decide) rfl (by decide)

/-- `pgVersion` answers on every store (the no-record conditions are mapped
to the empty state, and no other backend fault is state-determined). -/
theorem pgVersion_total (st : PgStore) : ∃ r, pgVersion st = .ok r := by
  rcases st with ⟨te, row⟩
  cases te with
  | false => exact ⟨(-1, false), rfl⟩
  | true =>
    cases row with
    | none => exact ⟨(-1, false), rfl⟩
    | some r => exact ⟨r, rfl⟩

/-- C8 counterexample: `Open` with `x-statement-timeout=5000` parses and
stores the timeout, yet the context `Version` hands its backend query
(`context.Background()`, `shell.go` line 297) carries no deadline — the
configured statement timeout bounds nothing.  `Config.StatementTimeout` is
written at `shell.go` line 141 and never read. -/
theorem C8_counterexample :
    shellOpenParse "mydb" [("x-statement-timeout", "5000")]
      = some (⟨"", "mydb", "", 5000⟩ : Config)
    ∧ (pgVersionCtx ⟨"", "mydb", "", 5000⟩).deadline = none := by
  exact ⟨rfl, rfl⟩

/-- C8 (amended): an unparsable `x-statement-timeout` makes `Open` fail
with a configuration error, and a parsable one is stored in the bound
configuration — but no backend statement context of the driver carries any
deadline, so the stored timeout bounds no statement. -/
theorem C8_statement_timeout_parse_only :
    (∀ path q, queryGet q "x-statement-timeout" ≠ "" →
        atoi (queryGet q "x-statement-timeout").data = none →
        ∀ st env, shellOpen path q st env = .error .confFailed)
    ∧ (∀ path q n, queryGet q "x-statement-timeout" ≠ "" →
        atoi (queryGet q "x-statement-timeout").data = some n →
        ∃ cfg, shellOpenParse path q = some cfg ∧ cfg.statementTimeout = n)
    ∧ (∀ cfg : Config,
        (pgVersionCtx cfg).deadline = none
        ∧ (pgSetVersionCtx cfg).deadline = none
        ∧ (pgDropCtx cfg).deadline = none
        ∧ (pgEnsureCtx cfg).deadline = none) := by
  refine ⟨?_, ?_, fun _ => ⟨rfl, rfl, rfl, rfl⟩⟩
  · intro path q hne hnone st env
    simp [shellOpen, shellOpenParse, hne, hnone]
  · intro path q n hne hsome
    simp only [shellOpenParse]
    rw [if_neg hne, hsome]
    exact ⟨_, rfl, rfl⟩

/-- Witness for C8: `x-statement-timeout=abc` fails `Open`. -/
theorem C8_witness :
    shellOpen "db" [("x-statement-timeout", "abc")] pgInit
      ⟨true, true, "d", true, "s", true, true, .ok, false, true, .ok⟩
      = .error .confFailed :=
  C8_statement_timeout_parse_only.1 "db" [("x-statement-timeout", "abc")]
    (by decide) (by decide) pgInit
    ⟨true, true, "d", true, "s", true, true, .ok, false, true, .ok⟩

/-- C9 counterexample: the key-value `Open` succeeds against a target whose
version-store table does not exist — it performs no store operation at all
(`src/unnamed/part_000` lines 41‑85) — and the immediately following
`Version()` fails for lack of a store. -/
theorem C9_counterexample :
    (dynOpen ⟨false, none⟩ [] true).1
      = .ok { migrationsTable := "", timeout := 0, verbose := true }
    ∧ (dynOpen ⟨false, none⟩ [] true).2 = ⟨false, none⟩
    ∧ dynVersion ⟨false, none⟩ = .error .resourceNotFound := by
  exact ⟨rfl, rfl, rfl⟩

/-- C9 (amended): the relational `WithInstance`/`Open` ensures the version
store exists before returning — a success leaves the migrations table
existing (created under the advisory lock by `ensureVersionTable`), so the
following `Version()` cannot fail for lack of a store; the key-value
variant's `Open`, by contrast, never touches the store. -/
theorem C9_withInstance_ensures_store :
    (∀ st cfg env cfg' st' lk,
        withInstance st (some cfg) env = .ok (cfg', st', lk) →
        st'.tableExists = true ∧ ∃ r, pgVersion st' = .ok r)
    ∧ (∀ st q ok, (dynOpen st q ok).2 = st) := by
  constructor
  · intro st cfg env cfg' st' lk h
    simp only [withInstance] at h
    split at h
    · exact absurd h (by simp)
    · split at h
      · exact absurd h (by simp)
      · split at h
        · exact absurd h (by simp)
        · split at h
          · exact absurd h (by simp)
          · split at h
            · exact absurd h (by simp)
            · rename_i st'' locked' hens
              injection h with h1
              have h2 : st' = st'' := by
                have := congrArg (fun p => p.2.1) h1
                simpa using this.symm
              subst h2
              refine ⟨?_, pgVersion_total _⟩
              have hok := ensureVersionTable_ok st false env.lockGenOk
                env.lockEx env.createFails env.unlockGenOk env.unlockEx
                (by rw [hens])
              rw [hens] at hok
              exact hok
  · intro st q ok
    simp only [dynOpen]
    split
    · rfl
    · split
      · rfl
      · split <;> rfl

/-- Witness for C9: a concrete successful `WithInstance` run on a
table-less store leaves the migrations table existing. -/
theorem C9_witness :
    (withInstance ⟨false, none⟩ (some ⟨"t", "db", "sch", 0⟩)
        ⟨true, true, "x", true, "y", true, true, .ok, false, true, .ok⟩
      = .ok (⟨"t", "db", "sch", 0⟩, ⟨true, none⟩, false))
    ∧ ((⟨true, none⟩ : PgStore).tableExists = true
        ∧ ∃ r, pgVersion ⟨true, none⟩ = .ok r) :=
  ⟨rfl, C9_withInstance_ensures_store.1 ⟨false, none⟩ ⟨"t", "db", "sch", 0⟩
    ⟨true, true, "x", true, "y", true, true, .ok, false, true, .ok⟩
    ⟨"t", "db", "sch", 0⟩ ⟨true, none⟩ false rfl⟩

/-- C10: the process-local `isLocked` flag tracks the server-side advisory
lock.  At the call level, an erring `Lock`/`Unlock` leaves the flag as it
was, and the flag flips only when the corresponding
`pg_advisory_lock`/`pg_advisory_unlock` statement executed without error
(`shell.go` lines 161‑197); consequently, in every reachable global state,
`isLocked = true` implies this handle's session holds the server-side
lock. -/
theorem C10_isLocked_tracks_server_lock :
    (∀ (flag genIdOk : Bool) (ex : ExecOutcome),
        ((lockCall flag genIdOk ex).res ≠ none →
            (lockCall flag genIdOk ex).locked = flag)
        ∧ ((lockCall flag genIdOk ex).locked = true → flag = false →
            genIdOk = true ∧ ex = .ok ∧ (lockCall flag genIdOk ex).res = none))
    ∧ (∀ (flag genIdOk : Bool) (ex : ExecOutcome),
        ((unlockCall flag genIdOk ex).res ≠ none →
            (unlockCall flag genIdOk ex).locked = flag)
        ∧ ((unlockCall flag genIdOk ex).locked = false → flag = true →
            genIdOk = true ∧ ex = .ok ∧ (unlockCall flag genIdOk ex).res = none))
    ∧ (∀ s, LockReachable s → ∀ h, s.flags h = true → s.holder = some h) := by
  refine ⟨?_, ?_, ?_⟩
  · intro flag g e
    cases flag <;> cases g <;> cases e <;> simp [lockCall]
  · intro flag g e
    cases flag <;> cases g <;> cases e <;> simp [unlockCall]
  · intro s hr h hf
    exact lockInv_reachable hr h hf

/-- Witness for C10: a failed `pg_advisory_lock` statement leaves the flag
false. -/
theorem C10_witness :
    (lockCall false true .failed).res ≠ none
    ∧ (lockCall false true .failed).locked = false :=
  ⟨by decide, (C10_isLocked_tracks_server_lock.1 false true .failed).1 (by decide)⟩

end Shell
